import Mathlib

/-
Verification of the annotation pipeline of zathura-pdf-mupdf
(src/zathura-pdf-mupdf/annotations.c and src/zathura-pdf-mupdf/page.c).

Machine floats/doubles of the C source are embedded as exact rationals ℚ;
"within floating tolerance" statements become exact statements over ℚ.
MuPDF-library iteration (pdf_first_annot / pdf_next_annot) is embedded as a
list of events, where an event is either an annotation or a raised library
failure (fz_throw caught by fz_catch).
-/

set_option linter.unusedVariables false

/-- Host-space rectangle (zathura_rectangle_t): origin top-left, Y down. -/
structure Rectangle where
  x1 : ℚ
  y1 : ℚ
  x2 : ℚ
  y2 : ℚ
deriving Repr, DecidableEq

/-- A point in MuPDF native space (fz_point). -/
structure FzPoint where
  x : ℚ
  y : ℚ
deriving Repr, DecidableEq

/-- A native quadrilateral (fz_quad): upper-left, upper-right, lower-left,
lower-right corners. -/
structure FzQuad where
  ul : FzPoint
  ur : FzPoint
  ll : FzPoint
  lr : FzPoint
deriving Repr, DecidableEq

/-- A native rectangle (fz_rect), origin bottom-left, Y up. -/
structure FzRect where
  x0 : ℚ
  y0 : ℚ
  x1 : ℚ
  y1 : ℚ
deriving Repr, DecidableEq

/-- The four semantic highlight colors (zathura_highlight_color_t). -/
inductive HighlightColor where
  | yellow
  | green
  | blue
  | red
deriving Repr, DecidableEq

/-- Error taxonomy (zathura_error_t), restricted to the codes used by the
annotation pipeline. -/
inductive ZathuraError where
  | ok
  | unknown
  | invalidArguments
  | outOfMemory
deriving Repr, DecidableEq

/-- Native annotation kinds relevant to this plugin (enum pdf_annot_type):
the three markup kinds, the TEXT (sticky-note) kind, and a catch-all for
every other kind. -/
inductive AnnotType where
  | highlight
  | underline
  | strikeOut
  | text
  | other
deriving Repr, DecidableEq

/-- A native annotation as observed/produced through the MuPDF calls the
plugin makes: its type, its quad points (pdf_annot_quad_point), its color
(pdf_annot_color: channel count and up to four channels), its rect
(pdf_annot_rect, used for TEXT annotations), and its contents string
(pdf_annot_contents, none when absent). -/
structure PdfAnnot where
  type : AnnotType
  quads : List FzQuad
  colorN : ℤ
  color : ℚ × ℚ × ℚ × ℚ
  rect : FzRect
  contents : Option String
deriving Repr, DecidableEq

/-- MuPDF fz_empty_rect: the all-zero rectangle. -/
def fz_empty_rect : FzRect := { x0 := 0, y0 := 0, x1 := 0, y1 := 0 }

/-- MuPDF fz_is_empty_rect: a rect with no positive extent. -/
def fz_is_empty_rect (r : FzRect) : Bool :=
  decide (r.x1 ≤ r.x0 ∨ r.y1 ≤ r.y0)

/-- MuPDF fz_rect_from_quad: axis-aligned bounding box of the four corners. -/
def fz_rect_from_quad (q : FzQuad) : FzRect :=
  { x0 := min (min q.ul.x q.ur.x) (min q.ll.x q.lr.x)
  , y0 := min (min q.ul.y q.ur.y) (min q.ll.y q.lr.y)
  , x1 := max (max q.ul.x q.ur.x) (max q.ll.x q.lr.x)
  , y1 := max (max q.ul.y q.ur.y) (max q.ll.y q.lr.y) }

/-- MuPDF fz_union_rect: union of two rects, ignoring empty ones. -/
def fz_union_rect (a b : FzRect) : FzRect :=
  if fz_is_empty_rect a then b
  else if fz_is_empty_rect b then a
  else { x0 := min a.x0 b.x0, y0 := min a.y0 b.y0
       , x1 := max a.x1 b.x1, y1 := max a.y1 b.y1 }

/-- Forward coordinate transform of annotations.c pdf_page_get_annotations
(lines 160-176): bounding box of the quad in native space, then
x1 = x0, x2 = x1, y1 = pageHeight - y1, y2 = pageHeight - y0 (Y flip). -/
def quad_to_zathura_rect (page_height : ℚ) (q : FzQuad) : Rectangle :=
  let r := fz_rect_from_quad q
  { x1 := r.x0, x2 := r.x1, y1 := page_height - r.y1, y2 := page_height - r.y0 }

/-- Reverse coordinate transform of annotations.c pdf_page_export_annotations
(lines 333-345): host rectangle to a native axis-aligned quad,
ul=(x1,H-y1), ur=(x2,H-y1), ll=(x1,H-y2), lr=(x2,H-y2). -/
def rect_to_quad (page_height : ℚ) (r : Rectangle) : FzQuad :=
  { ul := { x := r.x1, y := page_height - r.y1 }
  , ur := { x := r.x2, y := page_height - r.y1 }
  , ll := { x := r.x1, y := page_height - r.y2 }
  , lr := { x := r.x2, y := page_height - r.y2 } }

/-- Per-quad conversion of page.c pdf_page_get_annotations (lines 447-470):
the min/max bounding box of the quad corners taken directly as the
rectangle, with no Y flip. -/
def quad_to_rect_minmax (q : FzQuad) : Rectangle :=
  { x1 := min (min q.ul.x q.ur.x) (min q.ll.x q.lr.x)
  , y1 := min (min q.ul.y q.ur.y) (min q.ll.y q.lr.y)
  , x2 := max (max q.ul.x q.ur.x) (max q.ll.x q.lr.x)
  , y2 := max (max q.ul.y q.ur.y) (max q.ll.y q.lr.y) }

/-- annotations.c map_color (lines 26-47): classify a sampled color with n
reported channels into a semantic highlight color. -/
def map_color (n : ℤ) (c : ℚ × ℚ × ℚ × ℚ) : HighlightColor :=
  if n < 3 then .yellow
  else
    let r := c.1
    let g := c.2.1
    let b := c.2.2.1
    if r > 7/10 ∧ g > 7/10 ∧ b < 1/2 then .yellow
    else if g > 3/5 ∧ g > r ∧ g > b then .green
    else if b > 1/2 ∧ b > r then .blue
    else if r > 3/5 ∧ r > g ∧ r > b then .red
    else .yellow

/-- annotations.c get_color_rgb (lines 251-268): the fixed semantic color to
RGB lookup table used on export. -/
def get_color_rgb (color : HighlightColor) : ℚ × ℚ × ℚ :=
  match color with
  | .yellow => (1, 1, 0)
  | .green => (0, 1, 0)
  | .blue => (0, 1/2, 1)
  | .red => (1, 0, 0)

/-- page.c map_pdf_color_to_highlight (lines 361-380): the alternate
classifier used by the page.c reader, on a 3-channel sample. -/
def map_pdf_color_to_highlight (r g b : ℚ) : HighlightColor :=
  if r > 4/5 ∧ g > 4/5 ∧ b < 3/10 then .yellow
  else if r < 3/10 ∧ g > 7/10 ∧ b < 3/10 then .green
  else if r < 1/2 ∧ g < 4/5 ∧ b > 3/5 then .blue
  else if r > 7/10 ∧ g < 3/10 ∧ b < 3/10 then .red
  else .yellow

/-- Classifying an exported RGB triple: the export path writes the triple
with pdf_set_annot_color(ctx, annot, 3, rgb), so a re-read sees n = 3 and
the three channels (the fourth channel is unused by map_color for n = 3). -/
def classify_rgb (rgb : ℚ × ℚ × ℚ) : HighlightColor :=
  map_color 3 (rgb.1, rgb.2.1, rgb.2.2, 0)

/-- C1: round-trip. Converting a normalized host rectangle to a native quad
with the reverse transform of the export path and converting that quad back
to host space with the forward transform of the read path yields the
rectangle back exactly. -/
theorem quad_roundtrip_exact (r : Rectangle) (page_height : ℚ)
    (hx : r.x1 ≤ r.x2) (hy : r.y1 ≤ r.y2) :
    quad_to_zathura_rect page_height (rect_to_quad page_height r) = r := by
  obtain ⟨x1, y1, x2, y2⟩ := r
  simp only [quad_to_zathura_rect, rect_to_quad, fz_rect_from_quad] at *
  simp only [min_self, max_self, Rectangle.mk.injEq]
  refine ⟨min_eq_left hx, ?_, max_eq_right hx, ?_⟩
  · rw [max_eq_left (by linarith)]
    ring
  · rw [min_eq_right (by linarith)]
    ring

/-- C1 witness: the round trip evaluated at the concrete rectangle
(100, 100, 200, 120) with page height 792. -/
theorem quad_roundtrip_exact_witness :
    quad_to_zathura_rect 792 (rect_to_quad 792 ⟨100, 100, 200, 120⟩)
      = ⟨100, 100, 200, 120⟩ :=
  quad_roundtrip_exact ⟨100, 100, 200, 120⟩ 792 (by norm_num) (by norm_num)

/-- C7: map_color is total and deterministic: it always returns one of the
four semantic colors (it is a function into the four-element type), and for
every sample with fewer than three reported channels it returns YELLOW. -/
theorem map_color_total (n : ℤ) (c : ℚ × ℚ × ℚ × ℚ) :
    (map_color n c = .yellow ∨ map_color n c = .green ∨
     map_color n c = .blue ∨ map_color n c = .red) ∧
    (n < 3 → map_color n c = .yellow) := by
  constructor
  · cases h : map_color n c
    · exact Or.inl rfl
    · exact Or.inr (Or.inl rfl)
    · exact Or.inr (Or.inr (Or.inl rfl))
    · exact Or.inr (Or.inr (Or.inr rfl))
  · intro hn
    simp only [map_color, if_pos hn]

/-- C7 witness: a two-channel grayscale sample classifies as YELLOW. -/
theorem map_color_total_witness :
    map_color 2 (1/2, 0, 0, 0) = .yellow ∧ (2 : ℤ) < 3 :=
  ⟨(map_color_total 2 (1/2, 0, 0, 0)).2 (by norm_num), by norm_num⟩

/-- C6: the inverse color table assigns distinct RGB triples to the four
semantic colors, and classifying each table entry as a 3-channel sample (with
either classifier of the two read paths) returns the same semantic color. -/
theorem color_table_roundtrip :
    (classify_rgb (get_color_rgb .yellow) = .yellow ∧
     classify_rgb (get_color_rgb .green) = .green ∧
     classify_rgb (get_color_rgb .blue) = .blue ∧
     classify_rgb (get_color_rgb .red) = .red) ∧
    ((map_pdf_color_to_highlight 1 1 0 = .yellow) ∧
     (map_pdf_color_to_highlight 0 1 0 = .green) ∧
     (map_pdf_color_to_highlight 0 (1/2) 1 = .blue) ∧
     (map_pdf_color_to_highlight 1 0 0 = .red)) ∧
    (get_color_rgb .yellow ≠ get_color_rgb .green ∧
     get_color_rgb .yellow ≠ get_color_rgb .blue ∧
     get_color_rgb .yellow ≠ get_color_rgb .red ∧
     get_color_rgb .green ≠ get_color_rgb .blue ∧
     get_color_rgb .green ≠ get_color_rgb .red ∧
     get_color_rgb .blue ≠ get_color_rgb .red) := by
  refine ⟨⟨?_, ?_, ?_, ?_⟩, ⟨?_, ?_, ?_, ?_⟩, ?_⟩ <;>
    norm_num [classify_rgb, get_color_rgb, map_color, map_pdf_color_to_highlight]

/-- C9: rectangle normalization. Given any native quad (whose bounding box
automatically satisfies x0 ≤ x1 and y0 ≤ y1), both the Y-flipping conversion
of annotations.c and the min/max conversion of page.c produce a rectangle
with x1 ≤ x2 and y1 ≤ y2. -/
theorem reader_rect_normalized (page_height : ℚ) (q : FzQuad)
    (hx : (fz_rect_from_quad q).x0 ≤ (fz_rect_from_quad q).x1)
    (hy : (fz_rect_from_quad q).y0 ≤ (fz_rect_from_quad q).y1) :
    ((quad_to_zathura_rect page_height q).x1 ≤ (quad_to_zathura_rect page_height q).x2 ∧
     (quad_to_zathura_rect page_height q).y1 ≤ (quad_to_zathura_rect page_height q).y2) ∧
    ((quad_to_rect_minmax q).x1 ≤ (quad_to_rect_minmax q).x2 ∧
     (quad_to_rect_minmax q).y1 ≤ (quad_to_rect_minmax q).y2) := by
  simp only [quad_to_zathura_rect, quad_to_rect_minmax, fz_rect_from_quad] at *
  refine ⟨⟨hx, by linarith⟩, ?_, ?_⟩
  · calc min (min q.ul.x q.ur.x) (min q.ll.x q.lr.x) ≤ q.ul.x :=
        le_trans (min_le_left _ _) (min_le_left _ _)
    _ ≤ max (max q.ul.x q.ur.x) (max q.ll.x q.lr.x) :=
        le_trans (le_max_left _ _) (le_max_left _ _)
  · calc min (min q.ul.y q.ur.y) (min q.ll.y q.lr.y) ≤ q.ul.y :=
        le_trans (min_le_left _ _) (min_le_left _ _)
    _ ≤ max (max q.ul.y q.ur.y) (max q.ll.y q.lr.y) :=
        le_trans (le_max_left _ _) (le_max_left _ _)

/-- A semantic highlight value (zathura_highlight_t) as used by this plugin:
page index, rectangle list, semantic color, optional text. (The synthetic
string id is not involved in any property considered here.) -/
structure Highlight where
  page : ℕ
  rects : List Rectangle
  color : HighlightColor
  text : Option String
deriving Repr, DecidableEq

/-- A sticky-note value (zathura_note_t): page index, native-space origin,
optional content. (The synthetic string id is not involved in any property
considered here.) -/
structure Note where
  page : ℕ
  x : ℚ
  y : ℚ
  content : Option String
deriving Repr, DecidableEq

/-- One step of iterating the page's native annotation list: either the next
annotation is produced, or the library raises a failure (fz_throw) at this
point of the traversal, which transfers control to the enclosing fz_catch. -/
inductive AnnotEvent where
  | annot (a : PdfAnnot)
  | fault
deriving Repr, DecidableEq

/-- annotations.c rect_matches (lines 390-398): compare a host rectangle
against a native rect converted to host coordinates with the same Y flip as
the forward transform, within eps per coordinate. -/
def rect_matches (zr : Rectangle) (x0 y0 x1 y1 : ℚ) (page_height eps : ℚ) : Bool :=
  let z_y1 := page_height - y1
  let z_y2 := page_height - y0
  decide (|zr.x1 - x0| < eps ∧ |zr.x2 - x1| < eps ∧
          |zr.y1 - z_y1| < eps ∧ |zr.y2 - z_y2| < eps)

/-- annotations.c annot_geometry_matches (lines 401-422): the candidate's
quad count must equal the target rectangle count, and each quad's bounding
box must match the positionally corresponding rectangle within eps = 1. -/
def annot_geometry_matches (quads : List FzQuad) (rects : List Rectangle)
    (page_height : ℚ) : Bool :=
  if quads.length ≠ rects.length then false
  else (quads.zip rects).all fun p =>
    let r := fz_rect_from_quad p.1
    rect_matches p.2 r.x0 r.y0 r.x1 r.y1 page_height 1

/-- Whether an annotation type passes the markup filter of the highlight
paths (HIGHLIGHT, UNDERLINE, STRIKE_OUT). -/
def is_markup_type (t : AnnotType) : Bool :=
  match t with
  | .highlight => true
  | .underline => true
  | .strikeOut => true
  | _ => false

/-- Data collected for one markup annotation in phase 1 of annotations.c
pdf_page_get_annotations (annot_data_t): host rectangles, classified color,
and the native bounding box of all quads (for later text lookup). -/
structure AnnotData where
  rects : List Rectangle
  color : HighlightColor
  annot_rect : FzRect
deriving Repr, DecidableEq

/-- Processing of a single annotation in the phase-1 loop of annotations.c
pdf_page_get_annotations (lines 129-203): skip non-markup annotations and
annotations without quad points; otherwise convert every quad to a host
rectangle, accumulate the union bounding box, and classify the color. -/
def process_annot (page_height : ℚ) (a : PdfAnnot) : Option AnnotData :=
  if ¬ is_markup_type a.type then none
  else if a.quads.length = 0 then none
  else some
    { rects := a.quads.map (quad_to_zathura_rect page_height)
    , color := map_color a.colorN a.color
    , annot_rect := a.quads.foldl
        (fun acc q => fz_union_rect acc (fz_rect_from_quad q)) fz_empty_rect }

/-- Phase 1 of annotations.c pdf_page_get_annotations: traverse the event
stream; a library failure anywhere aborts the whole collection (the fz_catch
at lines 205-214 frees everything). -/
def collect_phase1 (page_height : ℚ) : List AnnotEvent → Option (List AnnotData)
  | [] => some []
  | .fault :: _ => none
  | .annot a :: rest =>
    match collect_phase1 page_height rest with
    | none => none
    | some tail =>
      match process_annot page_height a with
      | some d => some (d :: tail)
      | none => some tail

/-- annotations.c pdf_page_get_annotations (lines 49-249), given the page
index, page height, the text-extraction oracle standing for phase 2's
fz_copy_selection over the page text layer, and the annotation event stream.
On a caught library failure the partially built data is discarded and the
call returns the UNKNOWN error with no result list. -/
def pdf_page_get_annotations (page_id : ℕ) (page_height : ℚ)
    (extract : FzRect → Option String) (events : List AnnotEvent) :
    Except ZathuraError (List Highlight) :=
  match collect_phase1 page_height events with
  | none => .error .unknown
  | some datas => .ok (datas.map fun d =>
      { page := page_id, rects := d.rects, color := d.color
      , text := extract d.annot_rect })

/-- The note built from one TEXT annotation by page.c pdf_page_get_notes
(lines 166-185): position taken from the native rect origin, content taken
verbatim. -/
def note_of_annot (page_id : ℕ) (a : PdfAnnot) : Note :=
  { page := page_id, x := a.rect.x0, y := a.rect.y0, content := a.contents }

/-- The collection loop of page.c pdf_page_get_notes (lines 164-189): keep
TEXT annotations; a library failure mid-iteration stops the traversal but
keeps everything collected so far (the fz_catch at lines 187-189 only logs). -/
def collect_notes (page_id : ℕ) : List AnnotEvent → List Note
  | [] => []
  | .fault :: _ => []
  | .annot a :: rest =>
    if a.type = .text then note_of_annot page_id a :: collect_notes page_id rest
    else collect_notes page_id rest

/-- page.c pdf_page_get_notes (lines 122-200): returns the collected notes
and reports OK even when a library failure interrupted the traversal. -/
def pdf_page_get_notes (page_id : ℕ) (events : List AnnotEvent) :
    ZathuraError × List Note :=
  (.ok, collect_notes page_id events)

/-- The native annotation created for one highlight by annotations.c
pdf_page_export_annotations (lines 327-372): a HIGHLIGHT-kind annotation
whose quads come from the reverse transform of each rectangle, whose color
is the 3-channel table entry, and whose contents are set only when the text
is present and non-empty. -/
def highlight_to_annot (page_height : ℚ) (hl : Highlight) : PdfAnnot :=
  { type := .highlight
  , quads := hl.rects.map (rect_to_quad page_height)
  , colorN := 3
  , color := ((get_color_rgb hl.color).1, (get_color_rgb hl.color).2.1,
              (get_color_rgb hl.color).2.2, 0)
  , rect := fz_empty_rect
  , contents :=
      match hl.text with
      | some t => if t ≠ "" then some t else none
      | none => none }

/-- annotations.c pdf_page_export_annotations (lines 270-387): iterate the
input highlights and commit one native annotation per highlight, skipping a
highlight whose page index differs from the target page and a highlight with
no rectangles. The returned list is the sequence of committed annotations. -/
def pdf_page_export_annotations (page_id : ℕ) (page_height : ℚ)
    (highlights : List Highlight) : List PdfAnnot :=
  highlights.filterMap fun hl =>
    if hl.page ≠ page_id then none
    else if hl.rects.length = 0 then none
    else some (highlight_to_annot page_height hl)

/-- The native annotation created for one note by page.c
pdf_page_export_notes (lines 561-585): a TEXT-kind annotation with a fixed
24x24 anchor rect at the note's stored native coordinates and the note's
content when present and non-empty. -/
def note_to_annot (note : Note) : PdfAnnot :=
  { type := .text
  , quads := []
  , colorN := 0
  , color := (0, 0, 0, 0)
  , rect := { x0 := note.x, y0 := note.y, x1 := note.x + 24, y1 := note.y + 24 }
  , contents :=
      match note.content with
      | some c => if c ≠ "" then some c else none
      | none => none }

/-- page.c pdf_page_export_notes (lines 529-597): an empty input list is a
no-op returning OK; otherwise every note in the list is committed to this
page — the loop applies no page-index filter. The page index parameter is
used by the source only for logging. -/
def pdf_page_export_notes (page_id : ℕ) (notes : List Note) :
    ZathuraError × List PdfAnnot :=
  if notes.length = 0 then (.ok, [])
  else (.ok, notes.map note_to_annot)

/-- The match predicate shared by page.c pdf_page_delete_note (line 234) and
pdf_page_update_note_content (line 306): a TEXT annotation whose native rect
origin is within eps = 1 of the target point in both coordinates, compared
directly in native space. -/
def note_target_matches (a : PdfAnnot) (x y : ℚ) : Bool :=
  decide (a.type = .text) &&
  decide (|a.rect.x0 - x| < 1 ∧ |a.rect.y0 - y| < 1)

/-- page.c pdf_page_delete_note (lines 202-249): scan the annotation list,
delete the first TEXT annotation matching the target point and return OK;
return UNKNOWN when none matches. The second component is the annotation
list after the call. -/
def pdf_page_delete_note (annots : List PdfAnnot) (x y : ℚ) :
    ZathuraError × List PdfAnnot :=
  match annots with
  | [] => (.unknown, [])
  | a :: rest =>
    if note_target_matches a x y then (.ok, rest)
    else
      let r := pdf_page_delete_note rest x y
      (r.1, a :: r.2)

/-- The matching loop of page.c pdf_page_update_note_content (lines
300-325): set the contents of the first TEXT annotation matching the target
point and return OK; leave everything unchanged and return UNKNOWN when none
matches. -/
def update_first_note (x y : ℚ) (c : String) :
    List PdfAnnot → ZathuraError × List PdfAnnot
  | [] => (.unknown, [])
  | a :: rest =>
    if note_target_matches a x y then (.ok, { a with contents := some c } :: rest)
    else
      let r := update_first_note x y c rest
      (r.1, a :: r.2)

/-- page.c pdf_page_update_note_content (lines 251-355): a null content
argument is rejected as INVALID_ARGUMENTS before anything is touched;
otherwise the first matching TEXT annotation has its contents replaced. -/
def pdf_page_update_note_content (annots : List PdfAnnot) (x y : ℚ)
    (content : Option String) : ZathuraError × List PdfAnnot :=
  match content with
  | none => (.invalidArguments, annots)
  | some c => update_first_note x y c annots

/-- An annotation with its contents field cleared; two annotations with the
same stripContents image agree on type, geometry, and color. -/
def stripContents (a : PdfAnnot) : PdfAnnot :=
  { a with contents := none }

/-- A zipped all-scan is the positional conjunction over indices. -/
theorem zip_all_iff_get {α β : Type} (f : α → β → Bool) :
    ∀ (xs : List α) (ys : List β),
      ((xs.zip ys).all (fun p => f p.1 p.2) = true ↔
        ∀ (i : ℕ) (hx : i < xs.length) (hy : i < ys.length),
          f xs[i] ys[i] = true)
  | [], ys => by simp
  | x :: xs, [] => by simp
  | x :: xs, y :: ys => by
    simp only [List.zip_cons_cons, List.all_cons, Bool.and_eq_true,
      zip_all_iff_get f xs ys]
    constructor
    · rintro ⟨hf, hrest⟩ i hx hy
      cases i with
      | zero => simpa using hf
      | succ n =>
        simpa using hrest n (by simpa using hx) (by simpa using hy)
    · intro h
      refine ⟨by simpa using h 0 (by simp) (by simp), fun i hx hy => ?_⟩
      simpa using h (i + 1) (by simpa using hx) (by simpa using hy)

/-- C2: the rectangle-list matcher matches exactly when the quad count
equals the rectangle count and each quad's bounding box, converted to host
space by the forward transform, differs from the positionally corresponding
target rectangle by strictly less than 1 in each coordinate. -/
theorem annot_geometry_matches_iff (page_height : ℚ)
    (quads : List FzQuad) (rects : List Rectangle) :
    annot_geometry_matches quads rects page_height = true ↔
      (quads.length = rects.length ∧
       ∀ (i : ℕ) (hq : i < quads.length) (hr : i < rects.length),
         |rects[i].x1 - (quad_to_zathura_rect page_height quads[i]).x1| < 1 ∧
         |rects[i].x2 - (quad_to_zathura_rect page_height quads[i]).x2| < 1 ∧
         |rects[i].y1 - (quad_to_zathura_rect page_height quads[i]).y1| < 1 ∧
         |rects[i].y2 - (quad_to_zathura_rect page_height quads[i]).y2| < 1) := by
  unfold annot_geometry_matches
  by_cases hlen : quads.length = rects.length
  · rw [if_neg (not_not_intro hlen)]
    refine Iff.trans
      (zip_all_iff_get
        (fun q zr => rect_matches zr (fz_rect_from_quad q).x0
          (fz_rect_from_quad q).y0 (fz_rect_from_quad q).x1
          (fz_rect_from_quad q).y1 page_height 1) quads rects) ?_
    simp only [rect_matches, quad_to_zathura_rect, decide_eq_true_eq]
    constructor
    · intro h
      exact ⟨hlen, h⟩
    · rintro ⟨-, h⟩
      exact h
  · rw [if_pos hlen]
    simp [hlen]

/-- A library failure anywhere in the traversal makes phase 1 of the
highlight reader discard the whole collection. -/
theorem collect_phase1_fault (page_height : ℚ) :
    ∀ events : List AnnotEvent, AnnotEvent.fault ∈ events →
      collect_phase1 page_height events = none := by
  intro events h
  induction events with
  | nil => cases h
  | cons e rest ih =>
    cases e with
    | fault => rfl
    | annot a =>
      have hrest : AnnotEvent.fault ∈ rest := by
        rcases List.mem_cons.mp h with h0 | h1
        · cases h0
        · exact h1
      simp [collect_phase1, ih hrest]

/-- C3: if the underlying library raises a failure at any point while the
highlight reader iterates the annotation list, the whole read fails with the
UNKNOWN error and no highlight collection is returned. -/
theorem get_annotations_fault_discards_all (page_id : ℕ) (page_height : ℚ)
    (extract : FzRect → Option String) (events : List AnnotEvent)
    (h : AnnotEvent.fault ∈ events) :
    pdf_page_get_annotations page_id page_height extract events =
      .error .unknown := by
  unfold pdf_page_get_annotations
  rw [collect_phase1_fault page_height events h]

/-- A sample TEXT annotation (sticky note) whose native rect origin is at
(50.4, 50.4) = (252/5, 252/5). -/
def sample_note_annot : PdfAnnot :=
  { type := .text
  , quads := []
  , colorN := 0
  , color := (0, 0, 0, 0)
  , rect := { x0 := 252/5, y0 := 252/5, x1 := 252/5 + 24, y1 := 252/5 + 24 }
  , contents := some "a note" }

/-- A sample markup annotation preceding a fault in the event stream. -/
def sample_markup_annot : PdfAnnot :=
  { type := .highlight
  , quads := [rect_to_quad 792 ⟨100, 100, 200, 120⟩]
  , colorN := 3
  , color := (1, 1, 0, 0)
  , rect := fz_empty_rect
  , contents := none }

/-- C3 witness: a stream holding one markup annotation and then a fault is
discarded entirely. -/
theorem get_annotations_fault_discards_all_witness :
    pdf_page_get_annotations 0 792 (fun _ => none)
      [AnnotEvent.annot sample_markup_annot, AnnotEvent.fault] =
      .error .unknown :=
  get_annotations_fault_discards_all 0 792 (fun _ => none)
    [AnnotEvent.annot sample_markup_annot, AnnotEvent.fault] (by simp)

/-- A library failure stops the note collection loop but keeps everything
collected before the failure point. -/
theorem collect_notes_fault (page_id : ℕ) :
    ∀ (pre post : List AnnotEvent), AnnotEvent.fault ∉ pre →
      collect_notes page_id (pre ++ AnnotEvent.fault :: post) =
        collect_notes page_id pre := by
  intro pre post h
  induction pre with
  | nil => rfl
  | cons e rest ih =>
    cases e with
    | fault => exact absurd (List.mem_cons_self _ _) h
    | annot a =>
      have hrest : AnnotEvent.fault ∉ rest := fun hm => h (List.mem_cons_of_mem _ hm)
      by_cases ht : a.type = .text <;>
        simp [collect_notes, ht, ih hrest]

/-- C4: if the underlying library raises a failure while the note reader
iterates the annotation list, the operation still reports OK and returns
exactly the notes collected before the failure point. -/
theorem get_notes_partial_on_fault (page_id : ℕ)
    (pre post : List AnnotEvent) (h : AnnotEvent.fault ∉ pre) :
    pdf_page_get_notes page_id (pre ++ AnnotEvent.fault :: post) =
      pdf_page_get_notes page_id pre ∧
    (pdf_page_get_notes page_id (pre ++ AnnotEvent.fault :: post)).1 =
      .ok := by
  constructor
  · unfold pdf_page_get_notes
    rw [collect_notes_fault page_id pre post h]
  · rfl

/-- C4 witness: one note read before a fault is kept and the read reports
OK, while an annotation after the fault is not reached. -/
theorem get_notes_partial_on_fault_witness :
    pdf_page_get_notes 0
        ([AnnotEvent.annot sample_note_annot] ++
          AnnotEvent.fault :: [AnnotEvent.annot sample_note_annot]) =
      pdf_page_get_notes 0 [AnnotEvent.annot sample_note_annot] ∧
    (pdf_page_get_notes 0
        ([AnnotEvent.annot sample_note_annot] ++
          AnnotEvent.fault :: [AnnotEvent.annot sample_note_annot])).1 =
      .ok :=
  get_notes_partial_on_fault 0 [AnnotEvent.annot sample_note_annot]
    [AnnotEvent.annot sample_note_annot] (by simp)

/-- A note addressed to page 1, used against a page of index 0. -/
def cross_page_note : Note :=
  { page := 1, x := 10, y := 10, content := some "misplaced" }

/-- C5 counterexample: pdf_page_export_notes commits a note whose page field
differs from the target page index — the loop applies no page filter, so the
claim that both exports filter to the target page is false for notes. -/
theorem export_notes_commits_foreign_page :
    cross_page_note.page ≠ 0 ∧
    (pdf_page_export_notes 0 [cross_page_note]).2 =
      [note_to_annot cross_page_note] := by
  constructor
  · decide
  · rfl

/-- C5 (amended): the highlight export commits exactly the input highlights
whose page index equals the target page (and which have at least one
rectangle), while the note export commits every note of the input list
regardless of its page field. -/
theorem export_page_filtering (page_id : ℕ) (page_height : ℚ)
    (highlights : List Highlight) (notes : List Note) :
    pdf_page_export_annotations page_id page_height highlights =
      (highlights.filter fun hl =>
        decide (hl.page = page_id) && decide (hl.rects ≠ [])).map
        (highlight_to_annot page_height) ∧
    (pdf_page_export_notes page_id notes).2 = notes.map note_to_annot := by
  constructor
  · induction highlights with
    | nil => rfl
    | cons hl rest ih =>
      by_cases h1 : hl.page = page_id
      · by_cases h2 : hl.rects = []
        · simp [pdf_page_export_annotations, List.filterMap_cons,
            List.filter_cons, h1, h2, List.length_eq_zero,
            pdf_page_export_annotations] at ih ⊢
          exact ih
        · simp [pdf_page_export_annotations, List.filterMap_cons,
            List.filter_cons, h1, h2, List.length_eq_zero] at ih ⊢
          exact ih
      · simp [pdf_page_export_annotations, List.filterMap_cons,
          List.filter_cons, h1] at ih ⊢
        exact ih
  · by_cases h : notes.length = 0
    · have hn : notes = [] := List.length_eq_zero.mp h
      simp [pdf_page_export_notes, hn]
    · simp [pdf_page_export_notes, h]

/-- The delete-note status is OK exactly when some annotation in the list
matches the target point. -/
theorem delete_note_ok_iff (x y : ℚ) :
    ∀ annots : List PdfAnnot,
      ((pdf_page_delete_note annots x y).1 = .ok ↔
        ∃ a ∈ annots, note_target_matches a x y = true) := by
  intro annots
  induction annots with
  | nil => simp [pdf_page_delete_note]
  | cons a rest ih =>
    by_cases h : note_target_matches a x y
    · simp [pdf_page_delete_note, h]
    · simp [pdf_page_delete_note, h, ih]

/-- The delete-note status is either OK or UNKNOWN. -/
theorem delete_note_status_cases (x y : ℚ) :
    ∀ annots : List PdfAnnot,
      (pdf_page_delete_note annots x y).1 = .ok ∨
      (pdf_page_delete_note annots x y).1 = .unknown := by
  intro annots
  induction annots with
  | nil => exact Or.inr rfl
  | cons a rest ih =>
    by_cases h : note_target_matches a x y
    · simp [pdf_page_delete_note, h]
    · simpa [pdf_page_delete_note, h] using ih

/-- Deleting removes exactly the first matching annotation. -/
theorem delete_note_erases_first (x y : ℚ) :
    ∀ annots : List PdfAnnot,
      (pdf_page_delete_note annots x y).2 =
        annots.eraseP (fun a => note_target_matches a x y) := by
  intro annots
  induction annots with
  | nil => rfl
  | cons a rest ih =>
    by_cases h : note_target_matches a x y
    · simp [pdf_page_delete_note, h, List.eraseP_cons]
    · simp [pdf_page_delete_note, h, List.eraseP_cons, ih]

/-- C8: note deletion matches a TEXT annotation exactly when both
coordinates of its native origin are strictly within 1.0 of the target
point (no transform); it removes the first such match and returns OK, and
returns UNKNOWN when nothing matches. Deleting at (50,50) with the only
note at (50.4, 50.4) succeeds; deleting at (52,52) reports not found. -/
theorem delete_note_spec (annots : List PdfAnnot) (x y : ℚ) :
    ((pdf_page_delete_note annots x y).1 = .ok ↔
      ∃ a ∈ annots, a.type = .text ∧ |a.rect.x0 - x| < 1 ∧ |a.rect.y0 - y| < 1) ∧
    ((pdf_page_delete_note annots x y).1 = .unknown ↔
      ¬ ∃ a ∈ annots, a.type = .text ∧ |a.rect.x0 - x| < 1 ∧ |a.rect.y0 - y| < 1) ∧
    ((pdf_page_delete_note annots x y).2 =
      annots.eraseP (fun a => note_target_matches a x y)) ∧
    (pdf_page_delete_note [sample_note_annot] 50 50).1 = .ok ∧
    (pdf_page_delete_note [sample_note_annot] 52 52).1 = .unknown := by
  have hmem : (∃ a ∈ annots, note_target_matches a x y = true) ↔
      ∃ a ∈ annots, a.type = .text ∧ |a.rect.x0 - x| < 1 ∧ |a.rect.y0 - y| < 1 := by
    simp [note_target_matches]
  refine ⟨(delete_note_ok_iff x y annots).trans hmem, ?_, delete_note_erases_first x y annots, ?_, ?_⟩
  · rw [← hmem, ← delete_note_ok_iff x y annots]
    rcases delete_note_status_cases x y annots with h | h <;> simp [h]
  · have hm : note_target_matches sample_note_annot 50 50 = true := by
      simp [note_target_matches, sample_note_annot, abs_lt]
      norm_num
    simp [pdf_page_delete_note, hm]
  · have hm : note_target_matches sample_note_annot 52 52 = false := by
      simp [note_target_matches, sample_note_annot, abs_lt]
      norm_num
    simp [pdf_page_delete_note, hm]

/-- The quad produced by exporting the rectangle (100,100,200,120) on a page
of height 792. -/
def sample_quad : FzQuad := rect_to_quad 792 ⟨100, 100, 200, 120⟩

/-- C9 witness: both conversions normalize the sample quad. -/
theorem reader_rect_normalized_witness :
    ((quad_to_zathura_rect 792 sample_quad).x1 ≤
        (quad_to_zathura_rect 792 sample_quad).x2 ∧
     (quad_to_zathura_rect 792 sample_quad).y1 ≤
        (quad_to_zathura_rect 792 sample_quad).y2) ∧
    ((quad_to_rect_minmax sample_quad).x1 ≤ (quad_to_rect_minmax sample_quad).x2 ∧
     (quad_to_rect_minmax sample_quad).y1 ≤ (quad_to_rect_minmax sample_quad).y2) :=
  reader_rect_normalized 792 sample_quad
    (by simp [sample_quad, rect_to_quad, fz_rect_from_quad])
    (by simp [sample_quad, rect_to_quad, fz_rect_from_quad])

/-- Replacing the contents field does not change the contents-stripped view
of an annotation. -/
theorem stripContents_set_contents (a : PdfAnnot) (c : String) :
    stripContents { a with contents := some c } = stripContents a := rfl

/-- The update loop preserves every annotation up to its contents field. -/
theorem update_first_note_strip (x y : ℚ) (c : String) :
    ∀ l : List PdfAnnot,
      (update_first_note x y c l).2.map stripContents = l.map stripContents := by
  intro l
  induction l with
  | nil => rfl
  | cons a rest ih =>
    by_cases h : note_target_matches a x y
    · simp [update_first_note, h, stripContents_set_contents]
    · simp [update_first_note, h, ih]

/-- The update loop preserves the number of TEXT annotations. -/
theorem update_first_note_text_count (x y : ℚ) (c : String) :
    ∀ l : List PdfAnnot,
      ((update_first_note x y c l).2.countP fun a => decide (a.type = .text)) =
        l.countP fun a => decide (a.type = .text) := by
  intro l
  induction l with
  | nil => rfl
  | cons a rest ih =>
    by_cases h : note_target_matches a x y
    · simp [update_first_note, h, List.countP_cons]
    · simp [update_first_note, h, List.countP_cons, ih]

/-- When no annotation matches, the update loop reports UNKNOWN and leaves
the list untouched. -/
theorem update_first_note_no_match (x y : ℚ) (c : String) :
    ∀ l : List PdfAnnot, (∀ a ∈ l, note_target_matches a x y = false) →
      update_first_note x y c l = (.unknown, l) := by
  intro l
  induction l with
  | nil => intro _; rfl
  | cons a rest ih =>
    intro h
    have ha := h a (List.mem_cons_self _ _)
    have hrest := fun b hb => h b (List.mem_cons_of_mem _ hb)
    simp [update_first_note, ha, ih hrest]

/-- When some annotation matches, the update loop rewrites exactly the first
match's contents and reports OK. -/
theorem update_first_note_found (x y : ℚ) (c : String) :
    ∀ l : List PdfAnnot, (∃ a ∈ l, note_target_matches a x y = true) →
      ∃ l1 a l2, l = l1 ++ a :: l2 ∧
        (∀ b ∈ l1, note_target_matches b x y = false) ∧
        note_target_matches a x y = true ∧
        update_first_note x y c l =
          (.ok, l1 ++ { a with contents := some c } :: l2) := by
  intro l
  induction l with
  | nil =>
    rintro ⟨a, ha, -⟩
    cases ha
  | cons a rest ih =>
    intro hex
    by_cases h : note_target_matches a x y
    · exact ⟨[], a, rest, rfl, by simp, h, by simp [update_first_note, h]⟩
    · have hex2 : ∃ b ∈ rest, note_target_matches b x y = true := by
        rcases hex with ⟨b, hb, hmb⟩
        rcases List.mem_cons.mp hb with rfl | hbr
        · exact absurd hmb (by simpa using h)
        · exact ⟨b, hbr, hmb⟩
      rcases ih hex2 with ⟨l1, b, l2, heq, hl1, hmb, hupd⟩
      refine ⟨a :: l1, b, l2, by simp [heq], ?_, hmb, ?_⟩
      · intro b2 hb2
        rcases List.mem_cons.mp hb2 with rfl | hb2r
        · simpa using h
        · exact hl1 _ hb2r
      · simp [update_first_note, h, hupd]

/-- C10: updating a note's content only rewrites the contents of the first
matching TEXT annotation: every annotation's type, geometry and color are
preserved, the TEXT-annotation count is preserved, a null content argument
leaves the list untouched with INVALID_ARGUMENTS, and when no annotation
matches the list is untouched and the status is not OK. -/
theorem update_note_content_frame (annots : List PdfAnnot) (x y : ℚ)
    (content : Option String) :
    ((pdf_page_update_note_content annots x y content).2.map stripContents =
      annots.map stripContents) ∧
    (((pdf_page_update_note_content annots x y content).2.countP
        fun a => decide (a.type = .text)) =
      annots.countP fun a => decide (a.type = .text)) ∧
    (content = none →
      pdf_page_update_note_content annots x y content =
        (.invalidArguments, annots)) ∧
    ((∀ a ∈ annots, note_target_matches a x y = false) →
      (pdf_page_update_note_content annots x y content).1 ≠ .ok ∧
      (pdf_page_update_note_content annots x y content).2 = annots) ∧
    (∀ c, content = some c →
      (∃ a ∈ annots, note_target_matches a x y = true) →
      ∃ l1 a l2, annots = l1 ++ a :: l2 ∧
        (∀ b ∈ l1, note_target_matches b x y = false) ∧
        note_target_matches a x y = true ∧
        pdf_page_update_note_content annots x y content =
          (.ok, l1 ++ { a with contents := some c } :: l2)) := by
  cases content with
  | none =>
    refine ⟨rfl, rfl, fun _ => rfl, fun _ => ⟨?_, rfl⟩, ?_⟩
    · simp [pdf_page_update_note_content]
    · intro c hc
      cases hc
  | some c =>
    refine ⟨update_first_note_strip x y c annots,
      update_first_note_text_count x y c annots, ?_, ?_, ?_⟩
    · intro hc
      cases hc
    · intro h
      have hu := update_first_note_no_match x y c annots h
      constructor
      · simp [pdf_page_update_note_content, hu]
      · simp [pdf_page_update_note_content, hu]
    · intro c2 hc hex
      have hcc : c = c2 := by injection hc
      subst hcc
      exact update_first_note_found x y c annots hex

/-- C10 witness: a null content argument leaves a one-note page untouched
and reports INVALID_ARGUMENTS. -/
theorem update_note_content_frame_witness :
    pdf_page_update_note_content [sample_note_annot] 0 0 none =
      (.invalidArguments, [sample_note_annot]) :=
  (update_note_content_frame [sample_note_annot] 0 0 none).2.2.1 rfl
